import Mathlib

/-!
Shallow embedding of bionic's `tools/versioner/src/versioner.cpp` (the
configuration-matrix generator, the internal consistency checker
`checkSymbol`/`sanityCheck`, the cross-platform checker `checkVersions`, and
the exit-status logic of `main`), together with the availability data model.
The data model types (`Arch`, `CompilationType`, `DeclarationAvailability`,
`Declaration`, `Symbol`, `HeaderDatabase`, the platform symbol database) live
in headers that are not part of this repository snapshot; those definitions
are modelled from the specification, as marked in their doc comments.
-/

set_option autoImplicit false

namespace Versioner

/-- Modelled from the spec: `Arch` (from `Arch.h`, not in the sources) is a
fixed enumerated set of supported CPU architectures. -/
inductive Arch where
  | arm
  | arm64
  | mips
  | mips64
  | x86
  | x86_64
deriving DecidableEq, Repr

/-- Modelled from the spec: the list of every supported architecture. -/
def archList : List Arch :=
  [Arch.arm, Arch.arm64, Arch.mips, Arch.mips64, Arch.x86, Arch.x86_64]

theorem mem_archList (a : Arch) : a ∈ archList := by
  cases a <;> simp [archList]

/-- Structure `CompilationType` (modelled from the spec, from `versioner.h` which is not
in the sources): one (architecture, API level, file_offset_bits) build
configuration. -/
structure CompilationType where
  arch : Arch
  api_level : Nat
  file_offset_bits : Nat
deriving DecidableEq, Repr

/-- Function `generateCompilationTypes` from `versioner.cpp`: for each selected
architecture, skip selected API levels below that architecture's minimum and
insert both `file_offset_bits` variants for each surviving level.
`arch_min_api` is the per-architecture minimum API level map from `Arch.cpp`
(not in the sources), passed here as an explicit argument. -/
def generateCompilationTypes (arch_min_api : Arch → Nat)
    (selected_architectures : Finset Arch) (selected_levels : Finset Nat) :
    Finset CompilationType :=
  selected_architectures.biUnion fun arch =>
    (selected_levels.filter fun api_level => ¬ api_level < arch_min_api arch).biUnion
      fun api_level =>
        {⟨arch, api_level, 32⟩, ⟨arch, api_level, 64⟩}

theorem mem_generateCompilationTypes {arch_min_api : Arch → Nat}
    {archs : Finset Arch} {levels : Finset Nat} {t : CompilationType} :
    t ∈ generateCompilationTypes arch_min_api archs levels ↔
      t.arch ∈ archs ∧ t.api_level ∈ levels ∧ arch_min_api t.arch ≤ t.api_level ∧
        (t.file_offset_bits = 32 ∨ t.file_offset_bits = 64) := by
  obtain ⟨a, l, b⟩ := t
  simp only [generateCompilationTypes, Finset.mem_biUnion, Finset.mem_filter,
    Finset.mem_insert, Finset.mem_singleton]
  constructor
  · rintro ⟨a', ha', l', ⟨hl', hmin⟩, h | h⟩ <;>
      · cases h
        exact ⟨ha', hl', Nat.not_lt.mp hmin, by simp⟩
  · rintro ⟨ha, hl, hmin, hb | hb⟩ <;> cases hb
    · exact ⟨a, ha, l, ⟨hl, Nat.not_lt.mpr hmin⟩, Or.inl rfl⟩
    · exact ⟨a, ha, l, ⟨hl, Nat.not_lt.mpr hmin⟩, Or.inr rfl⟩

/-- Minimum-API map for the end-to-end scenario of the spec: architecture A
(`arm`) has minimum API level 9, architecture B (`arm64`) has minimum 21. -/
def scenarioMinApi : Arch → Nat
  | Arch.arm => 9
  | Arch.arm64 => 21
  | _ => 9

/-- Claim C5: every configuration produced by `generateCompilationTypes` has
`api_level` at least its architecture's minimum; selected levels below an
architecture's minimum are silently skipped (they simply produce no
configuration, with no error); both `file_offset_bits` values 32 and 64 appear
for every surviving (architecture, level) pair; and for architectures
{A with minimum 9, B with minimum 21} and levels {9, 21} the output has
exactly 6 elements. -/
theorem claim_C5 (arch_min_api : Arch → Nat) (archs : Finset Arch)
    (levels : Finset Nat) :
    (∀ t ∈ generateCompilationTypes arch_min_api archs levels,
      arch_min_api t.arch ≤ t.api_level) ∧
    (∀ (a : Arch) (l b : Nat), l < arch_min_api a →
      (⟨a, l, b⟩ : CompilationType) ∉ generateCompilationTypes arch_min_api archs levels) ∧
    (∀ (a : Arch) (l : Nat), a ∈ archs → l ∈ levels → arch_min_api a ≤ l →
      (⟨a, l, 32⟩ : CompilationType) ∈ generateCompilationTypes arch_min_api archs levels ∧
      (⟨a, l, 64⟩ : CompilationType) ∈ generateCompilationTypes arch_min_api archs levels) ∧
    (generateCompilationTypes scenarioMinApi {Arch.arm, Arch.arm64} {9, 21}).card = 6 := by
  refine ⟨?_, ?_, ?_, by decide⟩
  · intro t ht
    exact (mem_generateCompilationTypes.mp ht).2.2.1
  · intro a l b hlt hmem
    exact absurd (mem_generateCompilationTypes.mp hmem).2.2.1 (Nat.not_le.mpr hlt)
  · intro a l ha hl hmin
    exact ⟨mem_generateCompilationTypes.mpr ⟨ha, hl, hmin, Or.inl rfl⟩,
      mem_generateCompilationTypes.mpr ⟨ha, hl, hmin, Or.inr rfl⟩⟩

theorem claim_C5_witness :
    ((⟨Arch.arm, 9, 32⟩ : CompilationType) ∈
        generateCompilationTypes scenarioMinApi {Arch.arm} {9}) ∧
      ((⟨Arch.arm, 9, 64⟩ : CompilationType) ∈
        generateCompilationTypes scenarioMinApi {Arch.arm} {9}) :=
  (claim_C5 scenarioMinApi {Arch.arm} {9}).2.2.1 Arch.arm 9 (by decide) (by decide)
    (by decide)

/-- Claim C10: `generateCompilationTypes` is monotone with respect to set
inclusion in the selected levels and in the selected architectures, and its
output is always contained in the cartesian product of the selected
architectures, the selected levels and {32, 64}. -/
theorem claim_C10 (arch_min_api : Arch → Nat) (archs archs' : Finset Arch)
    (levels levels' : Finset Nat) :
    (levels ⊆ levels' →
      generateCompilationTypes arch_min_api archs levels ⊆
        generateCompilationTypes arch_min_api archs levels') ∧
    (archs ⊆ archs' →
      generateCompilationTypes arch_min_api archs levels ⊆
        generateCompilationTypes arch_min_api archs' levels) ∧
    (∀ t ∈ generateCompilationTypes arch_min_api archs levels,
      t.arch ∈ archs ∧ t.api_level ∈ levels ∧
        (t.file_offset_bits = 32 ∨ t.file_offset_bits = 64)) := by
  refine ⟨?_, ?_, ?_⟩
  · intro hsub t ht
    obtain ⟨h1, h2, h3, h4⟩ := mem_generateCompilationTypes.mp ht
    exact mem_generateCompilationTypes.mpr ⟨h1, hsub h2, h3, h4⟩
  · intro hsub t ht
    obtain ⟨h1, h2, h3, h4⟩ := mem_generateCompilationTypes.mp ht
    exact mem_generateCompilationTypes.mpr ⟨hsub h1, h2, h3, h4⟩
  · intro t ht
    obtain ⟨h1, h2, _, h4⟩ := mem_generateCompilationTypes.mp ht
    exact ⟨h1, h2, h4⟩

theorem claim_C10_witness :
    (generateCompilationTypes scenarioMinApi {Arch.arm} {9} ⊆
      generateCompilationTypes scenarioMinApi {Arch.arm} {9, 21}) ∧
    (generateCompilationTypes scenarioMinApi {Arch.arm} {9} ⊆
      generateCompilationTypes scenarioMinApi {Arch.arm, Arch.arm64} {9}) ∧
    ((⟨Arch.arm, 9, 32⟩ : CompilationType).arch ∈ ({Arch.arm} : Finset Arch) ∧
      (⟨Arch.arm, 9, 32⟩ : CompilationType).api_level ∈ ({9} : Finset Nat) ∧
      ((⟨Arch.arm, 9, 32⟩ : CompilationType).file_offset_bits = 32 ∨
        (⟨Arch.arm, 9, 32⟩ : CompilationType).file_offset_bits = 64)) := by
  have h := claim_C10 scenarioMinApi {Arch.arm} {Arch.arm, Arch.arm64} {9} {9, 21}
  exact ⟨h.1 (by decide), h.2.1 (by decide), h.2.2 ⟨Arch.arm, 9, 32⟩ (by decide)⟩

/-- Modelled from the spec: one (introduced, deprecated, obsoleted, future)
availability record, as stored in `DeclarationAvailability` (from
`DeclarationDatabase.h`, not in the sources). A zero level means "not set";
`future` marks a symbol whose introduction is not yet assigned to a level. -/
structure AvailabilityValues where
  introduced : Nat := 0
  deprecated : Nat := 0
  obsoleted : Nat := 0
  future : Bool := false
deriving DecidableEq, Repr

/-- Modelled from the spec: availability record with no constraint at all. -/
def AvailabilityValues.isEmpty (v : AvailabilityValues) : Bool :=
  v.introduced == 0 && v.deprecated == 0 && v.obsoleted == 0 && !v.future

/-- Modelled from the spec: a global availability record plus an
architecture-indexed map of per-architecture records (total function with the
all-unset record as the default, mirroring the C++ map's default entry). -/
structure DeclarationAvailability where
  global_availability : AvailabilityValues := {}
  arch_availability : Arch → AvailabilityValues := fun _ => {}

/-- Modelled from the spec: an Availability is empty when no constraint
exists, globally or for any architecture. -/
def DeclarationAvailability.isEmpty (d : DeclarationAvailability) : Bool :=
  d.global_availability.isEmpty &&
    (archList.all fun arch => (d.arch_availability arch).isEmpty)

/-- Modelled from the spec: an Availability is compatible only if, for every
axis (introduced/deprecated/obsoleted), at most one of the global value and a
per-architecture value is set. -/
def DeclarationAvailability.compatible (d : DeclarationAvailability) : Bool :=
  archList.all fun arch =>
    !(d.global_availability.introduced != 0 &&
        (d.arch_availability arch).introduced != 0) &&
    !(d.global_availability.deprecated != 0 &&
        (d.arch_availability arch).deprecated != 0) &&
    !(d.global_availability.obsoleted != 0 &&
        (d.arch_availability arch).obsoleted != 0)

/-- Modelled from the spec: merge one availability level from two
declarations; an unset (zero) side yields the other, equal values agree, and
two distinct set values disagree incompatibly. -/
def mergeLevel (a b : Nat) : Option Nat :=
  if a = 0 then some b
  else if b = 0 then some a
  else if a = b then some a
  else none

/-- Modelled from the spec: merge two availability records axis by axis. -/
def AvailabilityValues.merge (a b : AvailabilityValues) : Option AvailabilityValues :=
  match mergeLevel a.introduced b.introduced, mergeLevel a.deprecated b.deprecated,
      mergeLevel a.obsoleted b.obsoleted with
  | some i, some d, some o =>
    some { introduced := i, deprecated := d, obsoleted := o,
           future := a.future || b.future }
  | _, _, _ => none

/-- Modelled from the spec: union two Availability values, failing when any
two set values for one slot disagree. -/
def DeclarationAvailability.merge (a b : DeclarationAvailability) :
    Option DeclarationAvailability :=
  match a.global_availability.merge b.global_availability with
  | none => none
  | some g =>
    if archList.all
        (fun arch => ((a.arch_availability arch).merge (b.arch_availability arch)).isSome) then
      some { global_availability := g,
             arch_availability := fun arch =>
               ((a.arch_availability arch).merge (b.arch_availability arch)).getD {} }
    else none

/-- Modelled from the spec: a `Declaration` (from `DeclarationDatabase.h`, not
in the sources) is one declaration site: whether it is a definition, plus its
raw availability attributes reduced into one record per scope slot. -/
structure Declaration where
  is_definition : Bool
  availability : DeclarationAvailability

/-- Modelled from the spec: reduce a declaration's raw attributes to an
Availability; fails when the same axis is set both globally and
per-architecture on this single declaration. -/
def Declaration.calculateAvailability (decl : Declaration) :
    Option DeclarationAvailability :=
  if decl.availability.compatible then some decl.availability else none

/-- Modelled from the spec: a `Symbol` owns the set of declarations for one
name, indexed by the `CompilationType` each was observed under. -/
structure Symbol where
  name : String
  declarations : List (CompilationType × Declaration)

/-- Modelled from the spec: membership test used by the cross-platform
checker — was the symbol declared at all under this configuration. -/
def Symbol.hasDeclaration (symbol : Symbol) (type : CompilationType) : Bool :=
  symbol.declarations.any fun p => decide (p.1 = type)

/-- Modelled from the spec: merge the calculated availability of every
declaration in the list, failing as soon as one declaration's own calculation
fails or a merge conflicts. -/
def declListAvailability (decls : List (CompilationType × Declaration)) :
    Option DeclarationAvailability :=
  match decls with
  | [] => some {}
  | (_, decl) :: rest =>
    match decl.calculateAvailability with
    | none => none
    | some avail =>
      match declListAvailability rest with
      | none => none
      | some acc => avail.merge acc

/-- Modelled from the spec: a symbol's merged availability unions every
declaration's availability and additionally fails when the union sets the
same axis both globally and per-architecture. -/
def Symbol.calculateAvailability (symbol : Symbol) :
    Option DeclarationAvailability :=
  match declListAvailability symbol.declarations with
  | none => none
  | some merged => if merged.compatible then some merged else none

/-- Modelled from the spec: the `HeaderDatabase`, mapping symbol names to
symbols (represented as an association list, mirroring the C++ map). -/
structure HeaderDatabase where
  symbols : List (String × Symbol)

/-- Loop body of `checkSymbol` from `versioner.cpp`: walk the declarations,
tracking whether an inline definition was already seen; report failure on a
second definition, on a declaration whose availability fails to calculate,
and on a definition carrying nonempty availability. -/
def checkSymbolLoop (decls : List (CompilationType × Declaration))
    (has_inline_definition : Bool) : Bool :=
  match decls with
  | [] => true
  | (_, decl) :: rest =>
    if decl.is_definition && has_inline_definition then false
    else
      match decl.calculateAvailability with
      | none => false
      | some availability =>
        if decl.is_definition && !availability.isEmpty then false
        else checkSymbolLoop rest (has_inline_definition || decl.is_definition)

/-- Function `checkSymbol` from `versioner.cpp`: per-symbol internal consistency
check — the declaration loop above followed by the merged-availability
calculation for the whole symbol. -/
def checkSymbol (symbol : Symbol) : Bool :=
  if checkSymbolLoop symbol.declarations false then
    match symbol.calculateAvailability with
    | none => false
    | some _ => true
  else false

/-- Function `sanityCheck` from `versioner.cpp`: checks every symbol (continuing past
failures to report them all) and passes only when every symbol passed. -/
def sanityCheck (database : HeaderDatabase) : Bool :=
  database.symbols.all fun p => checkSymbol p.2

theorem checkSymbolLoop_true_iff (decls : List (CompilationType × Declaration))
    (d : Bool) :
    checkSymbolLoop decls d = true ↔
      ((∀ p ∈ decls, ∃ av, (Prod.snd p).calculateAvailability = some av ∧
          ((Prod.snd p).is_definition = true → av.isEmpty = true)) ∧
        decls.countP (fun p => (Prod.snd p).is_definition) + (if d then 1 else 0) ≤ 1) := by
  induction decls generalizing d with
  | nil => cases d <;> simp [checkSymbolLoop]
  | cons q rest ih =>
    obtain ⟨t, decl⟩ := q
    cases hdef : decl.is_definition with
    | false =>
      cases hc : decl.calculateAvailability with
      | none => simp [checkSymbolLoop, hdef, hc]
      | some av =>
        simp [checkSymbolLoop, hdef, hc, ih, List.countP_cons]
    | true =>
      cases d with
      | true =>
        refine iff_of_false (by simp [checkSymbolLoop, hdef]) ?_
        rintro ⟨-, hcount⟩
        simp [List.countP_cons, hdef] at hcount
      | false =>
        cases hc : decl.calculateAvailability with
        | none => simp [checkSymbolLoop, hdef, hc]
        | some av =>
          cases he : av.isEmpty with
          | false =>
            refine iff_of_false (by simp [checkSymbolLoop, hdef, hc, he]) ?_
            rintro ⟨hall, -⟩
            obtain ⟨av', hav', himp⟩ := hall (t, decl) (List.mem_cons_self _ _)
            rw [hc] at hav'
            cases hav'
            rw [himp hdef] at he
            cases he
          | true =>
            rw [show checkSymbolLoop ((t, decl) :: rest) false =
                checkSymbolLoop rest true by simp [checkSymbolLoop, hdef, hc, he]]
            rw [ih true]
            constructor
            · rintro ⟨hall, hcount⟩
              simp only [if_pos rfl] at hcount
              refine ⟨?_, ?_⟩
              · intro p hp
                rcases List.mem_cons.mp hp with rfl | hp
                · exact ⟨av, hc, fun _ => he⟩
                · exact hall p hp
              · simp only [List.countP_cons, hdef, if_pos rfl,
                  if_neg (Bool.false_ne_true)]
                omega
            · rintro ⟨hall, hcount⟩
              refine ⟨fun p hp => hall p (List.mem_cons_of_mem _ hp), ?_⟩
              simp only [List.countP_cons, hdef, if_pos rfl,
                if_neg (Bool.false_ne_true)] at hcount
              simp only [if_pos rfl]
              omega

theorem declListAvailability_none_of_mem
    {decls : List (CompilationType × Declaration)}
    {p : CompilationType × Declaration} (hp : p ∈ decls)
    (hc : (Prod.snd p).calculateAvailability = none) :
    declListAvailability decls = none := by
  induction decls with
  | nil => cases hp
  | cons q rest ih =>
    rcases List.mem_cons.mp hp with h | h
    · obtain ⟨t, decl⟩ := q
      cases h
      have hc' : decl.calculateAvailability = none := hc
      simp [declListAvailability, hc']
    · obtain ⟨t, decl⟩ := q
      cases hq : decl.calculateAvailability with
      | none => simp [declListAvailability, hq]
      | some av => simp [declListAvailability, hq, ih h]

theorem symbol_calculateAvailability_none_of_mem {symbol : Symbol}
    {p : CompilationType × Declaration} (hp : p ∈ symbol.declarations)
    (hc : (Prod.snd p).calculateAvailability = none) :
    symbol.calculateAvailability = none := by
  simp [Symbol.calculateAvailability, declListAvailability_none_of_mem hp hc]

theorem checkSymbol_eq_true_iff (symbol : Symbol) :
    checkSymbol symbol = true ↔
      checkSymbolLoop symbol.declarations false = true ∧
        (symbol.calculateAvailability).isSome = true := by
  unfold checkSymbol
  cases hloop : checkSymbolLoop symbol.declarations false with
  | false => simp
  | true => cases hcalc : symbol.calculateAvailability <;> simp

/-- Claim C4: for every symbol, the internal consistency checker
(`checkSymbol`, hence `sanityCheck` on that symbol) fails if and only if
(a) more than one of its declarations is a definition, or (b) a definition
declaration has nonempty calculated availability, or (c) the merged
availability calculation across all its declarations fails. -/
theorem claim_C4 (symbol : Symbol) :
    checkSymbol symbol = false ↔
      (1 < symbol.declarations.countP fun p => (Prod.snd p).is_definition) ∨
      (∃ p ∈ symbol.declarations, (Prod.snd p).is_definition = true ∧
        ∃ av, (Prod.snd p).calculateAvailability = some av ∧ av.isEmpty = false) ∨
      symbol.calculateAvailability = none := by
  have hiff := checkSymbol_eq_true_iff symbol
  have hloopiff := checkSymbolLoop_true_iff symbol.declarations false
  constructor
  · intro hfalse
    have hnot : ¬ (checkSymbolLoop symbol.declarations false = true ∧
        (symbol.calculateAvailability).isSome = true) := by
      intro h
      rw [← hiff] at h
      rw [hfalse] at h
      cases h
    rcases Classical.not_and_iff_or_not_not.mp hnot with hloop | hcalc
    · rw [hloopiff] at hloop
      rcases Classical.not_and_iff_or_not_not.mp hloop with hA | hcount
      · push_neg at hA
        obtain ⟨p, hp, hpa⟩ := hA
        cases hc : (Prod.snd p).calculateAvailability with
        | none =>
          exact Or.inr (Or.inr (symbol_calculateAvailability_none_of_mem hp hc))
        | some av =>
          have h2 := hpa av hc
          push_neg at h2
          refine Or.inr (Or.inl ⟨p, hp, h2.1, av, hc, ?_⟩)
          cases hae : av.isEmpty with
          | false => rfl
          | true => exact absurd hae h2.2
      · left
        simp only [Nat.not_le] at hcount
        rw [if_neg (Bool.false_ne_true)] at hcount
        omega
    · right; right
      cases h : symbol.calculateAvailability with
      | none => rfl
      | some av => rw [h] at hcalc; simp at hcalc
  · intro h
    cases hcs : checkSymbol symbol with
    | false => rfl
    | true =>
      exfalso
      obtain ⟨hloop, hcalc⟩ := hiff.mp hcs
      obtain ⟨hall, hcount⟩ := hloopiff.mp hloop
      rcases h with ha | hb | hc
      · rw [if_neg (Bool.false_ne_true)] at hcount
        omega
      · obtain ⟨p, hp, hdef, av, hav, hne⟩ := hb
        obtain ⟨av', hav', himp⟩ := hall p hp
        rw [hav] at hav'
        cases hav'
        rw [himp hdef] at hne
        cases hne
      · rw [hc] at hcalc
        cases hcalc

/-- Association-list lookup, mirroring `std::map::find` keyed by symbol
name (used for both the header database and the platform symbol database). -/
def lookupName {α : Type} (l : List (String × α)) (name : String) : Option α :=
  match l with
  | [] => none
  | p :: rest => if p.1 = name then some p.2 else lookupName rest name

/-- The per-(symbol, configuration) comparison step of `checkVersions` from
`versioner.cpp`: computes the `should_be_available` predicate from the
symbol's merged availability (global and per-architecture introduced/obsoleted
levels, then the declaration-presence test), returning `none` when the
configuration's architecture marks the symbol "future" (the C++ `continue`
that skips the comparison entirely). -/
def symbolComparison (symbol_availability : DeclarationAvailability)
    (symbol : Symbol) (type : CompilationType) : Option Bool :=
  let global_availability := symbol_availability.global_availability
  let arch_availability := symbol_availability.arch_availability type.arch
  let should_be_available := true
  let should_be_available :=
    if global_availability.introduced ≠ 0 ∧
        global_availability.introduced > type.api_level then false
    else should_be_available
  let should_be_available :=
    if arch_availability.introduced ≠ 0 ∧
        arch_availability.introduced > type.api_level then false
    else should_be_available
  let should_be_available :=
    if global_availability.obsoleted ≠ 0 ∧
        global_availability.obsoleted ≤ type.api_level then false
    else should_be_available
  let should_be_available :=
    if arch_availability.obsoleted ≠ 0 ∧
        arch_availability.obsoleted ≤ type.api_level then false
    else should_be_available
  if arch_availability.future then none
  else
    let should_be_available :=
      if ¬ symbol.hasDeclaration type then false else should_be_available
    some should_be_available

/-- The configurations a symbol is recorded as missing under in
`checkVersions`: the predicate says available (`some true`) but the platform
does not export the symbol there. -/
def missingFor (symbol_availability : DeclarationAvailability) (symbol : Symbol)
    (platform_availability : List CompilationType)
    (types : List CompilationType) : List CompilationType :=
  types.filter fun type =>
    decide (symbolComparison symbol_availability symbol type = some true) &&
      !(platform_availability.any fun t => decide (t = type))

/-- The configurations a symbol is recorded as extra under in
`checkVersions`: the predicate says unavailable (`some false`) but the
platform exports the symbol there. -/
def extraFor (symbol_availability : DeclarationAvailability) (symbol : Symbol)
    (platform_availability : List CompilationType)
    (types : List CompilationType) : List CompilationType :=
  types.filter fun type =>
    decide (symbolComparison symbol_availability symbol type = some false) &&
      (platform_availability.any fun t => decide (t = type))

/-- First phase of `checkVersions` from `versioner.cpp`: walk every header
database symbol, abort (`errx`) when a symbol's merged availability fails to
calculate, collect names absent from the platform database as "completely
unavailable", and otherwise record the missing/extra divergence sets. -/
def classifySymbols (types : List CompilationType)
    (symbols : List (String × Symbol))
    (symbol_database : List (String × List CompilationType)) :
    Except Unit (List String × List (String × List CompilationType) ×
      List (String × List CompilationType)) :=
  match symbols with
  | [] => .ok ([], [], [])
  | (symbol_name, symbol) :: rest =>
    match symbol.calculateAvailability with
    | none => .error ()
    | some symbol_availability =>
      match classifySymbols types rest symbol_database with
      | .error e => .error e
      | .ok (completely_unavailable, missing_availability, extra_availability) =>
        match lookupName symbol_database symbol_name with
        | none =>
          .ok (symbol_name :: completely_unavailable, missing_availability,
            extra_availability)
        | some platform_availability =>
          let missing := missingFor symbol_availability symbol platform_availability types
          let extra := extraFor symbol_availability symbol platform_availability types
          .ok (completely_unavailable,
            (if missing.isEmpty then missing_availability
             else (symbol_name, missing) :: missing_availability),
            (if extra.isEmpty then extra_availability
             else (symbol_name, extra) :: extra_availability))

/-- Per-name contribution to the `failed` flag in the reporting loop of
`checkVersions`: missing availability always fails; extra availability is
considered only when verbose diagnostics are enabled. -/
def symbolError (verbose : Bool)
    (missing_availability extra_availability : List (String × List CompilationType))
    (name : String) : Bool :=
  (lookupName missing_availability name).isSome ||
    (verbose && (lookupName extra_availability name).isSome)

/-- Second phase of `checkVersions` from `versioner.cpp`: walk the platform
symbol database, set `failed` from the recorded divergences, and, for any
symbol with an error, dump its declarations — which aborts (`errx`) if the
symbol cannot be found back in the header database. -/
def reportFailures (verbose : Bool) (header_symbols : List (String × Symbol))
    (symbol_database : List (String × List CompilationType))
    (missing_availability extra_availability : List (String × List CompilationType)) :
    Except Unit Bool :=
  match symbol_database with
  | [] => .ok false
  | (symbol_name, _) :: rest =>
    if symbolError verbose missing_availability extra_availability symbol_name &&
        (lookupName header_symbols symbol_name).isNone then
      .error ()
    else
      match reportFailures verbose header_symbols rest missing_availability
          extra_availability with
      | .error e => .error e
      | .ok failed =>
        .ok (symbolError verbose missing_availability extra_availability symbol_name ||
          failed)

/-- Function `checkVersions` from `versioner.cpp`: classify every symbol against the
platform database, then aggregate the failure flag; returns `.error` where
the C++ aborts via `errx`, and otherwise `.ok` of the pass/fail verdict
(`true` = pass). -/
def checkVersions (verbose : Bool) (types : List CompilationType)
    (header_database : HeaderDatabase)
    (symbol_database : List (String × List CompilationType)) : Except Unit Bool :=
  match classifySymbols types header_database.symbols symbol_database with
  | .error e => .error e
  | .ok (_completely_unavailable, missing_availability, extra_availability) =>
    match reportFailures verbose header_database.symbols symbol_database
        missing_availability extra_availability with
    | .error e => .error e
    | .ok failed => .ok (!failed)

/-- Inputs of the checking/exit phase of `main` in `versioner.cpp`:
command-line flags, the parse-phase failure flag produced by
`compileHeaders`, the populated header database, the platform database when
a platform directory was supplied, and the outcome of the (external)
preprocessing step when requested. -/
structure MainInputs where
  dump : Bool
  verbose : Bool
  parse_failed : Bool
  platform_supplied : Bool
  types : List CompilationType
  header_database : HeaderDatabase
  symbol_database : List (String × List CompilationType)
  preprocess_requested : Bool
  force : Bool
  preprocess_ok : Bool

/-- The tail of `main` from `versioner.cpp`: run preprocessing when requested
and either forced or not yet failed — note this overwrites `failed` with the
preprocessing outcome — then return the exit status. -/
def finishExitCode (preprocess_requested force preprocess_ok : Bool)
    (failed : Bool) : Nat :=
  let failed :=
    if preprocess_requested && (force || !failed) then !preprocess_ok else failed
  if failed then 1 else 0

/-- Exit status of `main` from `versioner.cpp` (lines 630–653): dump mode
skips checking; otherwise the sanity check and, when a platform directory was
supplied, the version check set `failed`; an `errx` inside `checkVersions`
exits with status 1 immediately. -/
def mainExitCode (i : MainInputs) : Nat :=
  let failed := i.parse_failed
  if i.dump then
    finishExitCode i.preprocess_requested i.force i.preprocess_ok failed
  else
    let failed := if !sanityCheck i.header_database then true else failed
    if i.platform_supplied then
      match checkVersions i.verbose i.types i.header_database i.symbol_database with
      | .error _ => 1
      | .ok ok =>
        finishExitCode i.preprocess_requested i.force i.preprocess_ok
          (if !ok then true else failed)
    else
      finishExitCode i.preprocess_requested i.force i.preprocess_ok failed

/-- Sample configuration: 32-bit arm at API level 9. -/
def tArm9 : CompilationType := ⟨Arch.arm, 9, 32⟩

/-- A declaration with `introduced=14` globally, used for the
extra-availability scenario of the spec (symbol `bar`). -/
def declBar : Declaration :=
  { is_definition := false,
    availability := { global_availability := { introduced := 14 } } }

/-- Symbol `bar` of the spec's extra-availability scenario. -/
def symBar : Symbol := { name := "bar", declarations := [(tArm9, declBar)] }

/-- Header database containing only `bar`. -/
def hdbBar : HeaderDatabase := ⟨[("bar", symBar)]⟩

/-- Platform database exporting `bar` at the tested configuration. -/
def sdbBar : List (String × List CompilationType) := [("bar", [tArm9])]

/-- A declaration whose raw availability sets `introduced` both globally and
for `arm`: its own availability calculation fails. -/
def declBad : Declaration :=
  { is_definition := false,
    availability :=
      { global_availability := { introduced := 9 },
        arch_availability := fun a =>
          if a = Arch.arm then { introduced := 10 } else {} } }

/-- A symbol whose merged availability fails to calculate. -/
def symBad : Symbol := { name := "baz", declarations := [(tArm9, declBad)] }

/-- Header database containing only the uncalculable symbol. -/
def hdbBad : HeaderDatabase := ⟨[("baz", symBad)]⟩

theorem lookupName_isSome_iff {α : Type} (l : List (String × α)) (name : String) :
    (lookupName l name).isSome = true ↔ ∃ p ∈ l, Prod.fst p = name := by
  induction l with
  | nil => simp [lookupName]
  | cons p rest ih =>
    by_cases h : p.1 = name
    · simp [lookupName, h]
    · simp only [lookupName, if_neg h, ih, List.mem_cons]
      constructor
      · rintro ⟨q, hq, hqn⟩
        exact ⟨q, Or.inr hq, hqn⟩
      · rintro ⟨q, hq | hq, hqn⟩
        · cases hq; exact absurd hqn h
        · exact ⟨q, hq, hqn⟩

theorem classify_names (types : List CompilationType)
    (symbol_database : List (String × List CompilationType)) :
    ∀ (symbols : List (String × Symbol)) (cu : List String)
      (miss extra : List (String × List CompilationType)),
      classifySymbols types symbols symbol_database = .ok (cu, miss, extra) →
      (∀ q ∈ miss, ∃ p ∈ symbols, Prod.fst p = Prod.fst q) ∧
      (∀ q ∈ extra, (∃ p ∈ symbols, Prod.fst p = Prod.fst q) ∧
        (lookupName symbol_database (Prod.fst q)).isSome = true) := by
  intro symbols
  induction symbols with
  | nil =>
    intro cu miss extra h
    simp only [classifySymbols, Except.ok.injEq, Prod.mk.injEq] at h
    obtain ⟨-, h2, h3⟩ := h
    subst h2
    subst h3
    simp
  | cons p rest ih =>
    intro cu miss extra h
    obtain ⟨symbol_name, symbol⟩ := p
    simp only [classifySymbols] at h
    cases hcalc : symbol.calculateAvailability with
    | none => rw [hcalc] at h; cases h
    | some avail =>
      rw [hcalc] at h
      cases hrest : classifySymbols types rest symbol_database with
      | error e => rw [hrest] at h; cases h
      | ok r =>
        obtain ⟨cu', miss', extra'⟩ := r
        rw [hrest] at h
        have ihr := ih cu' miss' extra' hrest
        cases hlook : lookupName symbol_database symbol_name with
        | none =>
          rw [hlook] at h
          simp only [Except.ok.injEq, Prod.mk.injEq] at h
          obtain ⟨-, h2, h3⟩ := h
          subst h2
          subst h3
          constructor
          · intro q hq
            obtain ⟨p', hp', hn⟩ := ihr.1 q hq
            exact ⟨p', List.mem_cons_of_mem _ hp', hn⟩
          · intro q hq
            obtain ⟨⟨p', hp', hn⟩, hs⟩ := ihr.2 q hq
            exact ⟨⟨p', List.mem_cons_of_mem _ hp', hn⟩, hs⟩
        | some platform_availability =>
          rw [hlook] at h
          simp only [Except.ok.injEq, Prod.mk.injEq] at h
          obtain ⟨-, h2, h3⟩ := h
          subst h2
          subst h3
          constructor
          · intro q hq
            by_cases hm : (missingFor avail symbol platform_availability types).isEmpty
            · rw [if_pos hm] at hq
              obtain ⟨p', hp', hn⟩ := ihr.1 q hq
              exact ⟨p', List.mem_cons_of_mem _ hp', hn⟩
            · rw [if_neg hm] at hq
              rcases List.mem_cons.mp hq with rfl | hq
              · exact ⟨(symbol_name, symbol), List.mem_cons_self _ _, rfl⟩
              · obtain ⟨p', hp', hn⟩ := ihr.1 q hq
                exact ⟨p', List.mem_cons_of_mem _ hp', hn⟩
          · intro q hq
            by_cases hm : (extraFor avail symbol platform_availability types).isEmpty
            · rw [if_pos hm] at hq
              obtain ⟨⟨p', hp', hn⟩, hs⟩ := ihr.2 q hq
              exact ⟨⟨p', List.mem_cons_of_mem _ hp', hn⟩, hs⟩
            · rw [if_neg hm] at hq
              rcases List.mem_cons.mp hq with rfl | hq
              · refine ⟨⟨(symbol_name, symbol), List.mem_cons_self _ _, rfl⟩, ?_⟩
                simp [hlook]
              · obtain ⟨⟨p', hp', hn⟩, hs⟩ := ihr.2 q hq
                exact ⟨⟨p', List.mem_cons_of_mem _ hp', hn⟩, hs⟩

theorem reportFailures_eq (verbose : Bool) (header_symbols : List (String × Symbol))
    (miss extra : List (String × List CompilationType))
    (symbol_database : List (String × List CompilationType))
    (hside : ∀ name, symbolError verbose miss extra name = true →
      (lookupName header_symbols name).isSome = true) :
    reportFailures verbose header_symbols symbol_database miss extra =
      .ok (symbol_database.any fun p => symbolError verbose miss extra (Prod.fst p)) := by
  induction symbol_database with
  | nil => simp [reportFailures]
  | cons p rest ih =>
    obtain ⟨symbol_name, pa⟩ := p
    simp only [reportFailures]
    cases hse : symbolError verbose miss extra symbol_name with
    | false =>
      simp only [hse, Bool.false_and, Bool.false_or, if_neg (Bool.false_ne_true), ih,
        List.any_cons]
    | true =>
      have hlook := hside symbol_name hse
      rw [Option.isSome_iff_exists] at hlook
      obtain ⟨sym, hsym⟩ := hlook
      simp only [hse, hsym, Option.isNone_some, Bool.true_and, Bool.and_false,
        if_neg (Bool.false_ne_true), ih, List.any_cons, Bool.true_or]

theorem checkVersions_eq (verbose : Bool) (types : List CompilationType)
    (header_database : HeaderDatabase)
    (symbol_database : List (String × List CompilationType))
    (cu : List String) (miss extra : List (String × List CompilationType))
    (hcl : classifySymbols types header_database.symbols symbol_database =
      .ok (cu, miss, extra)) :
    checkVersions verbose types header_database symbol_database =
      .ok (!(symbol_database.any fun p =>
        symbolError verbose miss extra (Prod.fst p))) := by
  have hnames := classify_names types symbol_database header_database.symbols
    cu miss extra hcl
  have hside : ∀ name, symbolError verbose miss extra name = true →
      (lookupName header_database.symbols name).isSome = true := by
    intro name hname
    rw [lookupName_isSome_iff]
    rcases Bool.or_eq_true_iff.mp hname with h | h
    · rw [lookupName_isSome_iff] at h
      obtain ⟨q, hq, hqn⟩ := h
      obtain ⟨p, hp, hpn⟩ := hnames.1 q hq
      exact ⟨p, hp, by rw [hpn, hqn]⟩
    · obtain ⟨-, h2⟩ := Bool.and_eq_true_iff.mp h
      rw [lookupName_isSome_iff] at h2
      obtain ⟨q, hq, hqn⟩ := h2
      obtain ⟨⟨p, hp, hpn⟩, -⟩ := hnames.2 q hq
      exact ⟨p, hp, by rw [hpn, hqn]⟩
  simp only [checkVersions, hcl,
    reportFailures_eq verbose header_database.symbols miss extra symbol_database hside]

theorem classify_ok_of_calc (types : List CompilationType)
    (symbol_database : List (String × List CompilationType))
    (symbols : List (String × Symbol))
    (hcalc : ∀ p ∈ symbols, ((Prod.snd p).calculateAvailability).isSome = true) :
    ∃ r, classifySymbols types symbols symbol_database = .ok r := by
  induction symbols with
  | nil => exact ⟨([], [], []), rfl⟩
  | cons p rest ih =>
    obtain ⟨symbol_name, symbol⟩ := p
    have h1 := hcalc (symbol_name, symbol) (List.mem_cons_self _ _)
    rw [Option.isSome_iff_exists] at h1
    obtain ⟨avail, havail⟩ := h1
    obtain ⟨⟨cu, miss, extra⟩, hrest⟩ :=
      ih fun p hp => hcalc p (List.mem_cons_of_mem _ hp)
    have havail' : symbol.calculateAvailability = some avail := havail
    cases hlook : lookupName symbol_database symbol_name with
    | none =>
      refine ⟨(symbol_name :: cu, miss, extra), ?_⟩
      simp only [classifySymbols, havail', hrest, hlook]
    | some platform_availability =>
      refine ⟨(cu,
        (if (missingFor avail symbol platform_availability types).isEmpty then miss
         else (symbol_name, missingFor avail symbol platform_availability types) :: miss),
        (if (extraFor avail symbol platform_availability types).isEmpty then extra
         else (symbol_name, extraFor avail symbol platform_availability types) :: extra)), ?_⟩
      simp only [classifySymbols, havail', hrest, hlook]

/-- Claim C1 counterexample: symbol `bar` is declared `introduced=14` but the
platform exports it at level 9, an extra-availability divergence (the
classification records it), yet with verbose diagnostics disabled
`checkVersions` returns pass — contradicting the claim that extra
availability fails the run regardless of verbose mode. -/
theorem claim_C1_counterexample :
    checkVersions false [tArm9] hdbBar sdbBar = .ok true ∧
    classifySymbols [tArm9] hdbBar.symbols sdbBar =
      .ok ([], [], [("bar", [tArm9])]) :=
  ⟨rfl, rfl⟩

/-- Claim C1 (amended): an extra-availability divergence fails the run only
when verbose diagnostics are enabled — with verbose on, any recorded
extra-availability entry makes `checkVersions` fail, while with verbose off,
extra-availability divergences alone (no missing-availability findings)
leave the run passing and unreported. -/
theorem claim_C1 (types : List CompilationType) (header_database : HeaderDatabase)
    (symbol_database : List (String × List CompilationType))
    (cu : List String) (miss extra : List (String × List CompilationType))
    (symbol_name : String) (e : List CompilationType)
    (hcl : classifySymbols types header_database.symbols symbol_database =
      .ok (cu, miss, extra)) :
    ((symbol_name, e) ∈ extra →
      checkVersions true types header_database symbol_database = .ok false) ∧
    (miss = [] →
      checkVersions false types header_database symbol_database = .ok true) := by
  constructor
  · intro hmem
    rw [checkVersions_eq true types header_database symbol_database cu miss extra hcl]
    have hnames := classify_names types symbol_database header_database.symbols
      cu miss extra hcl
    have hsdb := (hnames.2 (symbol_name, e) hmem).2
    rw [lookupName_isSome_iff] at hsdb
    obtain ⟨p, hp, hpn⟩ := hsdb
    have hextra : (lookupName extra symbol_name).isSome = true := by
      rw [lookupName_isSome_iff]
      exact ⟨(symbol_name, e), hmem, rfl⟩
    have hany : (symbol_database.any fun p =>
        symbolError true miss extra (Prod.fst p)) = true := by
      rw [List.any_eq_true]
      refine ⟨p, hp, ?_⟩
      rw [hpn]
      simp [symbolError, hextra]
    rw [hany]
    rfl
  · intro hmiss
    subst hmiss
    rw [checkVersions_eq false types header_database symbol_database cu [] extra hcl]
    have hany : (symbol_database.any fun p =>
        symbolError false [] extra (Prod.fst p)) = false := by
      rw [List.any_eq_false]
      intro p hp
      simp [symbolError, lookupName]
    rw [hany]
    rfl

theorem claim_C1_witness :
    checkVersions true [tArm9] hdbBar sdbBar = .ok false ∧
    checkVersions false [tArm9] hdbBar sdbBar = .ok true := by
  have h := claim_C1 [tArm9] hdbBar sdbBar [] [] [("bar", [tArm9])] "bar" [tArm9] rfl
  exact ⟨h.1 (List.mem_singleton.mpr rfl), h.2 rfl⟩

/-- Platform database exporting `foo`, used for the C2 counterexample. -/
def sdbFoo : List (String × List CompilationType) := [("foo", [tArm9])]

/-- Claim C2 counterexample: `foo` is present in the platform symbol database
and entirely absent from the (empty) header database, yet the "completely
unavailable" set computed by the checker is empty — the code collects the
opposite direction (header symbols absent from the platform database). -/
theorem claim_C2_counterexample :
    classifySymbols [tArm9] (⟨[]⟩ : HeaderDatabase).symbols sdbFoo =
      .ok ([], [], []) ∧
    lookupName (⟨[]⟩ : HeaderDatabase).symbols "foo" = none ∧
    lookupName sdbFoo "foo" = some [tArm9] :=
  ⟨rfl, rfl, rfl⟩

theorem classify_cu_mem (types : List CompilationType)
    (symbol_database : List (String × List CompilationType)) :
    ∀ (symbols : List (String × Symbol)) (cu : List String)
      (miss extra : List (String × List CompilationType))
      (symbol_name : String) (symbol : Symbol),
      classifySymbols types symbols symbol_database = .ok (cu, miss, extra) →
      (symbol_name, symbol) ∈ symbols →
      lookupName symbol_database symbol_name = none →
      symbol_name ∈ cu := by
  intro symbols
  induction symbols with
  | nil =>
    intro cu miss extra symbol_name symbol h hmem
    cases hmem
  | cons p rest ih =>
    intro cu miss extra symbol_name symbol h hmem hlook
    obtain ⟨n0, s0⟩ := p
    simp only [classifySymbols] at h
    cases hcalc : s0.calculateAvailability with
    | none => rw [hcalc] at h; cases h
    | some avail =>
      rw [hcalc] at h
      cases hrest : classifySymbols types rest symbol_database with
      | error e => rw [hrest] at h; cases h
      | ok r =>
        obtain ⟨cu', miss', extra'⟩ := r
        rw [hrest] at h
        rcases List.mem_cons.mp hmem with heq | hmem'
        · have hn : n0 = symbol_name := (Prod.mk.injEq _ _ _ _).mp heq.symm |>.1
          subst hn
          rw [hlook] at h
          simp only [Except.ok.injEq, Prod.mk.injEq] at h
          obtain ⟨h1, -, -⟩ := h
          rw [← h1]
          exact List.mem_cons_self _ _
        · have hcu' := ih cu' miss' extra' symbol_name symbol hrest hmem' hlook
          cases hl0 : lookupName symbol_database n0 with
          | none =>
            rw [hl0] at h
            simp only [Except.ok.injEq, Prod.mk.injEq] at h
            obtain ⟨h1, -, -⟩ := h
            rw [← h1]
            exact List.mem_cons_of_mem _ hcu'
          | some pa =>
            rw [hl0] at h
            simp only [Except.ok.injEq, Prod.mk.injEq] at h
            obtain ⟨h1, -, -⟩ := h
            rw [← h1]
            exact hcu'

/-- Claim C2 (amended): every symbol name present in the header database
(whose merged availability calculates) but entirely absent from the platform
symbol database is collected into the "completely unavailable" set, and such
symbols never by themselves cause the checker to fail — adding one to the
header database leaves the verdict of `checkVersions` unchanged. -/
theorem claim_C2 (verbose : Bool) (types : List CompilationType)
    (symbols : List (String × Symbol))
    (symbol_database : List (String × List CompilationType))
    (cu : List String) (miss extra : List (String × List CompilationType))
    (symbol_name : String) (symbol : Symbol) :
    (classifySymbols types symbols symbol_database = .ok (cu, miss, extra) →
      (symbol_name, symbol) ∈ symbols →
      lookupName symbol_database symbol_name = none →
      symbol_name ∈ cu) ∧
    ((symbol.calculateAvailability).isSome = true →
      lookupName symbol_database symbol_name = none →
      checkVersions verbose types ⟨(symbol_name, symbol) :: symbols⟩ symbol_database =
        checkVersions verbose types ⟨symbols⟩ symbol_database) := by
  constructor
  · intro hcl hmem hlook
    exact classify_cu_mem types symbol_database symbols cu miss extra
      symbol_name symbol hcl hmem hlook
  · intro hcalc hlook
    obtain ⟨avail, havail⟩ := Option.isSome_iff_exists.mp hcalc
    cases hrest : classifySymbols types symbols symbol_database with
    | error e =>
      have hl : classifySymbols types ((symbol_name, symbol) :: symbols)
          symbol_database = .error e := by
        simp only [classifySymbols, havail, hrest]
      simp only [checkVersions, hl, hrest]
    | ok r =>
      obtain ⟨cu', miss', extra'⟩ := r
      have hl : classifySymbols types ((symbol_name, symbol) :: symbols)
          symbol_database = .ok (symbol_name :: cu', miss', extra') := by
        simp only [classifySymbols, havail, hrest, hlook]
      rw [checkVersions_eq verbose types ⟨(symbol_name, symbol) :: symbols⟩
          symbol_database _ _ _ hl,
        checkVersions_eq verbose types ⟨symbols⟩ symbol_database _ _ _ hrest]

/-- A declaration with no availability constraint at all. -/
def declPlain : Declaration := { is_definition := false, availability := {} }

/-- Symbol `foo`, declared with no constraint, used in witnesses. -/
def symFoo : Symbol := { name := "foo", declarations := [(tArm9, declPlain)] }

theorem claim_C2_witness :
    "foo" ∈ ["foo"] ∧
    checkVersions false [tArm9] ⟨[("foo", symFoo)]⟩ [] =
      checkVersions false [tArm9] ⟨[]⟩ [] := by
  have h1 := claim_C2 false [tArm9] [("foo", symFoo)] [] ["foo"] [] [] "foo" symFoo
  have h2 := claim_C2 false [tArm9] [] [] [] [] [] "foo" symFoo
  exact ⟨h1.1 rfl (List.mem_singleton.mpr rfl) rfl, h2.2 rfl rfl⟩

/-- Claim C9 counterexample: the header database holds a symbol whose merged
availability fails to calculate (`introduced` set both globally and for
`arm` on one declaration); `checkVersions` aborts (`errx`) instead of
enumerating to completion and returning a pass/fail verdict. -/
theorem claim_C9_counterexample :
    checkVersions false [tArm9] hdbBad sdbBar = .error () := rfl

/-- Claim C9 (amended): provided every symbol's merged availability
calculates, the cross-platform checker evaluates every symbol × configuration
pair to completion and returns a single pass/fail verdict; a symbol whose
merged availability fails to calculate instead aborts the run immediately
(a fatal `errx`), as the counterexample shows. -/
theorem claim_C9 (verbose : Bool) (types : List CompilationType)
    (header_database : HeaderDatabase)
    (symbol_database : List (String × List CompilationType))
    (hcalc : ∀ p ∈ header_database.symbols,
      ((Prod.snd p).calculateAvailability).isSome = true) :
    ∃ b, checkVersions verbose types header_database symbol_database = .ok b := by
  obtain ⟨⟨cu, miss, extra⟩, hcl⟩ :=
    classify_ok_of_calc types symbol_database header_database.symbols hcalc
  exact ⟨_, checkVersions_eq verbose types header_database symbol_database
    cu miss extra hcl⟩

theorem claim_C9_witness :
    ∃ b, checkVersions false [tArm9] hdbBar sdbBar = .ok b := by
  refine claim_C9 false [tArm9] hdbBar sdbBar ?_
  intro p hp
  have hp' : p = ("bar", symBar) := List.mem_singleton.mp hp
  subst hp'
  rfl

/-- Claim C6: for a symbol whose merged availability has global
`introduced = 9` and no other constraint, declared under the tested
configuration, the `should_be_available` predicate is false at api_level 8
and true at api_level 9 and 14. -/
theorem claim_C6 (avail : DeclarationAvailability) (symbol : Symbol)
    (type : CompilationType)
    (hglobal : avail.global_availability = { introduced := 9 })
    (harch : ∀ a : Arch, avail.arch_availability a = {})
    (hdecl : symbol.hasDeclaration type = true) :
    (type.api_level = 8 → symbolComparison avail symbol type = some false) ∧
    (type.api_level = 9 → symbolComparison avail symbol type = some true) ∧
    (type.api_level = 14 → symbolComparison avail symbol type = some true) := by
  have ha := harch type.arch
  refine ⟨?_, ?_, ?_⟩ <;> intro hl <;>
    simp [symbolComparison, hglobal, ha, hdecl, hl]

/-- Availability for the C6 witness: global `introduced = 9`. -/
def availIntro9 : DeclarationAvailability :=
  { global_availability := { introduced := 9 } }

/-- Symbol declared (with no constraint attached at the declaration sites
themselves) under arm configurations at levels 8, 9 and 14. -/
def symIntro9 : Symbol :=
  { name := "foo9",
    declarations := [(⟨Arch.arm, 8, 32⟩, declPlain), (⟨Arch.arm, 9, 32⟩, declPlain),
      (⟨Arch.arm, 14, 32⟩, declPlain)] }

theorem claim_C6_witness :
    symbolComparison availIntro9 symIntro9 ⟨Arch.arm, 8, 32⟩ = some false ∧
    symbolComparison availIntro9 symIntro9 ⟨Arch.arm, 9, 32⟩ = some true ∧
    symbolComparison availIntro9 symIntro9 ⟨Arch.arm, 14, 32⟩ = some true :=
  ⟨(claim_C6 availIntro9 symIntro9 ⟨Arch.arm, 8, 32⟩ rfl (fun _ => rfl) (by decide)).1 rfl,
   (claim_C6 availIntro9 symIntro9 ⟨Arch.arm, 9, 32⟩ rfl (fun _ => rfl) (by decide)).2.1 rfl,
   (claim_C6 availIntro9 symIntro9 ⟨Arch.arm, 14, 32⟩ rfl (fun _ => rfl) (by decide)).2.2 rfl⟩

/-- Claim C7: for a symbol whose merged availability sets `introduced = 9`
only in the per-architecture entry for architecture A (no global value),
declared under the tested configuration, the predicate is true under every
other architecture regardless of api_level, while under architecture A it is
false exactly when the api_level is below 9. -/
theorem claim_C7 (avail : DeclarationAvailability) (symbol : Symbol) (A : Arch)
    (type : CompilationType)
    (hglobal : avail.global_availability = {})
    (hA : avail.arch_availability A = { introduced := 9 })
    (hother : ∀ a : Arch, a ≠ A → avail.arch_availability a = {})
    (hdecl : symbol.hasDeclaration type = true) :
    (type.arch ≠ A → symbolComparison avail symbol type = some true) ∧
    (type.arch = A →
      (symbolComparison avail symbol type = some false ↔ type.api_level < 9)) := by
  constructor
  · intro hne
    have ha := hother type.arch hne
    simp [symbolComparison, hglobal, ha, hdecl]
  · intro heq
    have ha : avail.arch_availability type.arch = { introduced := 9 } := by
      rw [heq, hA]
    by_cases hlt : type.api_level < 9
    · simp [symbolComparison, hglobal, ha, hdecl, hlt]
    · simp [symbolComparison, hglobal, ha, hdecl, hlt]

/-- Availability for the C7 witness: `introduced = 9` only for `arm`. -/
def availArmIntro9 : DeclarationAvailability :=
  { arch_availability := fun a => if a = Arch.arm then { introduced := 9 } else {} }

/-- Symbol declared under an arm level-8 configuration and an x86 level-3
configuration, used for the C7 witness. -/
def symArmIntro9 : Symbol :=
  { name := "foo7",
    declarations := [(⟨Arch.arm, 8, 32⟩, declPlain), (⟨Arch.x86, 3, 32⟩, declPlain)] }

theorem claim_C7_witness :
    symbolComparison availArmIntro9 symArmIntro9 ⟨Arch.x86, 3, 32⟩ = some true ∧
    (symbolComparison availArmIntro9 symArmIntro9 ⟨Arch.arm, 8, 32⟩ = some false ↔
      (8 : Nat) < 9) := by
  constructor
  · exact (claim_C7 availArmIntro9 symArmIntro9 Arch.arm ⟨Arch.x86, 3, 32⟩ rfl rfl
      (fun a ha => by simp [availArmIntro9, ha]) (by decide)).1 (by decide)
  · exact (claim_C7 availArmIntro9 symArmIntro9 Arch.arm ⟨Arch.arm, 8, 32⟩ rfl rfl
      (fun a ha => by simp [availArmIntro9, ha]) (by decide)).2 rfl

theorem symbolComparison_none_of_future (avail : DeclarationAvailability)
    (symbol : Symbol) (type : CompilationType)
    (h : (avail.arch_availability type.arch).future = true) :
    symbolComparison avail symbol type = none := by
  simp [symbolComparison, h]

/-- Claim C8: a symbol whose merged availability marks architecture A
"future" is excluded from cross-platform comparison for A's configurations —
it contributes neither a missing-availability nor an extra-availability
record there — while configurations of every other architecture are compared
normally (membership in the divergence sets is exactly the predicate-versus-
platform comparison). -/
theorem claim_C8 (avail : DeclarationAvailability) (symbol : Symbol)
    (platform_availability types : List CompilationType) (A : Arch)
    (hfut : (avail.arch_availability A).future = true) :
    (∀ type : CompilationType, type.arch = A →
      type ∉ missingFor avail symbol platform_availability types ∧
      type ∉ extraFor avail symbol platform_availability types) ∧
    (∀ type : CompilationType, type.arch ≠ A →
      (type ∈ missingFor avail symbol platform_availability types ↔
        type ∈ types ∧ symbolComparison avail symbol type = some true ∧
          (platform_availability.any fun t => decide (t = type)) = false) ∧
      (type ∈ extraFor avail symbol platform_availability types ↔
        type ∈ types ∧ symbolComparison avail symbol type = some false ∧
          (platform_availability.any fun t => decide (t = type)) = true)) := by
  have hnone : ∀ type : CompilationType, type.arch = A →
      symbolComparison avail symbol type = none := by
    intro type htype
    refine symbolComparison_none_of_future avail symbol type ?_
    rw [htype]
    exact hfut
  constructor
  · intro type htype
    constructor
    · intro hmem
      rw [missingFor, List.mem_filter] at hmem
      have h2 := hmem.2
      rw [hnone type htype] at h2
      simp at h2
    · intro hmem
      rw [extraFor, List.mem_filter] at hmem
      have h2 := hmem.2
      rw [hnone type htype] at h2
      simp at h2
  · intro type htype
    constructor
    · rw [missingFor, List.mem_filter]
      simp [Bool.and_eq_true, and_assoc]
    · rw [extraFor, List.mem_filter]
      simp [Bool.and_eq_true, and_assoc]

/-- Availability for the C8 witness: `arm` marked future. -/
def availArmFuture : DeclarationAvailability :=
  { arch_availability := fun a => if a = Arch.arm then { future := true } else {} }

/-- Symbol with no declarations, used for the C8 witness. -/
def symNoDecl : Symbol := { name := "fut", declarations := [] }

/-- Sample configuration: 32-bit x86 at API level 9. -/
def tX86_9 : CompilationType := ⟨Arch.x86, 9, 32⟩

theorem claim_C8_witness :
    (tArm9 ∉ missingFor availArmFuture symNoDecl [tArm9] [tArm9, tX86_9] ∧
      tArm9 ∉ extraFor availArmFuture symNoDecl [tArm9] [tArm9, tX86_9]) ∧
    (tX86_9 ∈ missingFor availArmFuture symNoDecl [tArm9] [tArm9, tX86_9] ↔
      tX86_9 ∈ [tArm9, tX86_9] ∧
        symbolComparison availArmFuture symNoDecl tX86_9 = some true ∧
        (([tArm9] : List CompilationType).any fun t => decide (t = tX86_9)) = false) := by
  have h := claim_C8 availArmFuture symNoDecl [tArm9] [tArm9, tX86_9] Arch.arm
    (by decide)
  exact ⟨h.1 tArm9 rfl, (h.2 tX86_9 (by decide)).1⟩

theorem finishExitCode_zero (preprocess_requested force preprocess_ok failed : Bool)
    (h : preprocess_requested = false ∨ force = false) :
    finishExitCode preprocess_requested force preprocess_ok failed = 0 →
      failed = false := by
  cases preprocess_requested <;> cases force <;> cases preprocess_ok <;>
    cases failed <;> simp_all [finishExitCode]

/-- Claim C3 counterexample: a non-dump run whose parse phase failed, with
preprocessing requested and forced and succeeding, exits with status 0 —
contradicting the claim that any failed check yields a nonzero exit. -/
def cexMainInputs : MainInputs :=
  { dump := false, verbose := false, parse_failed := true,
    platform_supplied := false, types := [], header_database := ⟨[]⟩,
    symbol_database := [], preprocess_requested := true, force := true,
    preprocess_ok := true }

theorem claim_C3_counterexample :
    mainExitCode cexMainInputs = 0 ∧ cexMainInputs.parse_failed = true ∧
      cexMainInputs.dump = false :=
  ⟨rfl, rfl, rfl⟩

/-- Claim C3 (amended): for every non-dump invocation in which preprocessing
is not forced (no `-f` together with `-o`), `main` exits with 0 only if the
parse phase produced no warnings or errors, the internal consistency checker
passed, and, when a platform directory was supplied, the cross-platform
checker passed; in every other such case the exit status is nonzero. When
preprocessing is forced, a successful preprocessing run overwrites the
failure flag, as the counterexample shows. -/
theorem claim_C3 (i : MainInputs) (hdump : i.dump = false)
    (hforce : i.preprocess_requested = false ∨ i.force = false)
    (h0 : mainExitCode i = 0) :
    i.parse_failed = false ∧ sanityCheck i.header_database = true ∧
      (i.platform_supplied = true →
        checkVersions i.verbose i.types i.header_database i.symbol_database =
          .ok true) := by
  simp only [mainExitCode, hdump, Bool.false_eq_true, if_false] at h0
  cases hs : sanityCheck i.header_database with
  | false =>
    exfalso
    rw [hs] at h0
    simp only [Bool.not_false, if_true] at h0
    cases hp : i.platform_supplied with
    | false =>
      rw [hp] at h0
      simp only [Bool.false_eq_true, if_false] at h0
      exact Bool.noConfusion (finishExitCode_zero _ _ _ _ hforce h0)
    | true =>
      rw [hp] at h0
      simp only [if_true] at h0
      cases hcv : checkVersions i.verbose i.types i.header_database
          i.symbol_database with
      | error e => rw [hcv] at h0; cases h0
      | ok ok =>
        rw [hcv] at h0
        have hfail := finishExitCode_zero _ _ _ _ hforce h0
        cases ok <;> simp at hfail
  | true =>
    rw [hs] at h0
    simp only [Bool.not_true, Bool.false_eq_true, if_false] at h0
    cases hp : i.platform_supplied with
    | false =>
      rw [hp] at h0
      simp only [Bool.false_eq_true, if_false] at h0
      have hpf := finishExitCode_zero _ _ _ _ hforce h0
      exact ⟨hpf, rfl, fun h => Bool.noConfusion h⟩
    | true =>
      rw [hp] at h0
      simp only [if_true] at h0
      cases hcv : checkVersions i.verbose i.types i.header_database
          i.symbol_database with
      | error e => rw [hcv] at h0; cases h0
      | ok ok =>
        rw [hcv] at h0
        have hfail := finishExitCode_zero _ _ _ _ hforce h0
        cases ok with
        | false => simp at hfail
        | true =>
          simp only [Bool.not_true, Bool.false_eq_true, if_false] at hfail
          exact ⟨hfail, rfl, fun _ => rfl⟩

/-- A benign non-dump run: nothing failed, no platform directory, no
preprocessing. -/
def okMainInputs : MainInputs :=
  { dump := false, verbose := false, parse_failed := false,
    platform_supplied := false, types := [], header_database := ⟨[]⟩,
    symbol_database := [], preprocess_requested := false, force := false,
    preprocess_ok := true }

theorem claim_C3_witness :
    okMainInputs.parse_failed = false ∧
      sanityCheck okMainInputs.header_database = true ∧
      (okMainInputs.platform_supplied = true →
        checkVersions okMainInputs.verbose okMainInputs.types
          okMainInputs.header_database okMainInputs.symbol_database = .ok true) :=
  claim_C3 okMainInputs rfl (Or.inl rfl) rfl

end Versioner
